import Mathlib

/-
Verification of the SuperCode front end (src/parser.py and src/astcollections.py):
a shallow embedding of the scanner (`tokenize`) and the recursive-descent parser
(`Parser` / `parse_sc`), with theorems about the claimed properties.

Modelling conventions:
 - Python exceptions are modelled by `Except Err`.  `Err.exception msg` is
   `raise Exception(msg)`, `Err.indexError` is an `IndexError` from indexing a
   string or list out of bounds, and `Err.attributeError cls` is the
   `AttributeError` raised when `src.astcollections` has no attribute `cls`
   (the module defines neither `Parameter` nor `Return`, yet `parser.py`
   constructs `asts.Parameter(...)` and `asts.Return(...)`).
 - Loops whose Python originals can run forever are given a fuel parameter;
   running out of fuel is the distinguished outcome `Err.outOfFuel`.  The fuel
   passed by the top-level wrappers is large enough for every terminating run
   (for the scanner every loop iteration advances the cursor, so
   `length + 1` iterations suffice; for the parser this is proved below).
 - Python's Unicode-aware `str.isspace` / `isalpha` / `isalnum` / `isnumeric`
   are modelled on the ASCII range, which is the range the grammar and all
   claims exercise.
-/

namespace SuperCode

-- ===== Token Types (class TokenType, parser.py lines 8-16) =====
inductive TokenType where
  | Keyword
  | Identifier
  | Number
  | EOF
  | Operator
  | Delimiter
  | StringLiteral
  | DataType
deriving DecidableEq, Repr

-- ===== Position (parser.py lines 19-22; the field name typo is the source's) =====
structure Position where
  coloums : Nat
  row : Nat
deriving DecidableEq, Repr

-- ===== Token (parser.py lines 25-31) =====
structure Token where
  token_type : TokenType
  value : String
  position : Position
deriving DecidableEq, Repr

-- ===== Python exceptions =====
inductive Err where
  | exception (message : String)
  | attributeError (missing : String)
  | indexError
  | outOfFuel
deriving DecidableEq, Repr

-- ===== Lexer config (parser.py lines 46-49); Python sets modelled as lists =====
def keyword_map : List String := ["function", "done", "return"]

def operator_map : List Char := ['=']

def delimiter_map : List Char := [';', ':', '(', ')', ',']

def data_type_map : List String := ["int", "string", "bool", "void"]

-- ===== Character predicates (ASCII fragment of the Python str methods) =====
def pyIsSpace (c : Char) : Bool :=
  c = ' ' || c = '\t' || c = '\n' || c = '\x0b' || c = '\x0c' || c = '\r'

def pyIsAlpha (c : Char) : Bool :=
  ('a' ≤ c && c ≤ 'z') || ('A' ≤ c && c ≤ 'Z')

def pyIsDigit (c : Char) : Bool :=
  '0' ≤ c && c ≤ '9'

def pyIsAlnum (c : Char) : Bool :=
  pyIsAlpha c || pyIsDigit c

-- ===== Lexer state: cursor plus running position (tokenize lines 58-60) =====
structure LexState where
  i : Nat
  row : Nat
  column : Nat
deriving DecidableEq, Repr

/-- The in-bounds body of `advance()` (tokenize lines 62-69): a newline
increments the row and resets the column, anything else increments the column;
the cursor always moves one character forward. -/
def bump (src : List Char) (st : LexState) (h : st.i < src.length) : LexState :=
  if src.get ⟨st.i, h⟩ = '\n' then ⟨st.i + 1, st.row + 1, 1⟩
  else ⟨st.i + 1, st.row, st.column + 1⟩

/-- `advance()` as called from tokenize: it reads `source[i]`, so when the
cursor is already past the end it raises IndexError. -/
def advanceQ (src : List Char) (st : LexState) : Except Err LexState :=
  if h : st.i < src.length then .ok (bump src st h) else .error .indexError

theorem bump_i (src : List Char) (st : LexState) (h : st.i < src.length) :
    (bump src st h).i = st.i + 1 := by
  unfold bump; split <;> rfl

/-
The four inner scan loops below are guarded by `i < length` and advance the
cursor on every iteration, so each runs at most `length - i` times; they are
written as structural recursion on a counter so that the kernel can evaluate
them, and every call site passes `length + 1`, which the guard makes
unreachable as a stopping reason.
-/

/-- The comment loop (tokenize lines 76-77): `while i < len(source) and c != '\n'`.
The saved character `c` is never updated by the loop, so for `c = '#'` the
condition on `c` never becomes false and the loop consumes input to the end. -/
def commentLoop (src : List Char) : Nat → Char → LexState → LexState
  | 0, _, st => st
  | n + 1, c, st =>
    if h : st.i < src.length ∧ c ≠ '\n' then commentLoop src n c (bump src st h.1) else st

/-- The identifier/keyword scan loop (tokenize lines 87-89). -/
def wordLoop (src : List Char) : Nat → LexState → List Char → List Char × LexState
  | 0, st, acc => (acc, st)
  | n + 1, st, acc =>
    if h : st.i < src.length then
      let c := src.get ⟨st.i, h⟩
      if pyIsAlnum c || c = '_' then wordLoop src n (bump src st h) (acc ++ [c])
      else (acc, st)
    else (acc, st)

/-- The number scan loop (tokenize lines 106-108). -/
def numLoop (src : List Char) : Nat → LexState → List Char → List Char × LexState
  | 0, st, acc => (acc, st)
  | n + 1, st, acc =>
    if h : st.i < src.length then
      let c := src.get ⟨st.i, h⟩
      if pyIsDigit c then numLoop src n (bump src st h) (acc ++ [c]) else (acc, st)
    else (acc, st)

/-- The string-literal scan loop (tokenize lines 135-137): consume characters
until a closing quote or the end of input. -/
def strLoop (src : List Char) : Nat → LexState → List Char → List Char × LexState
  | 0, st, acc => (acc, st)
  | n + 1, st, acc =>
    if h : st.i < src.length then
      let c := src.get ⟨st.i, h⟩
      if c ≠ '\"' then strLoop src n (bump src st h) (acc ++ [c]) else (acc, st)
    else (acc, st)

/-- Word classification (tokenize lines 91-96): keyword set first, then the
data-type set, otherwise an identifier. -/
def classify_word (word : String) : TokenType :=
  if word ∈ keyword_map then .Keyword
  else if word ∈ data_type_map then .DataType
  else .Identifier

/-- The main scanner loop (tokenize lines 71-145).  Each `continue` in the
Python loop is a tail call here.  The `#` branch does not `continue`: after the
comment loop the remaining branch tests still run against the saved `c`, which
is exactly what the source does.  One fuel unit is spent per iteration. -/
def lexLoop (src : List Char) : Nat → LexState → List Token → Except Err (List Token)
  | 0, _, _ => .error .outOfFuel
  | fuel + 1, st0, tokens =>
    if h : st0.i < src.length then
      let c := src.get ⟨st0.i, h⟩
      -- comments (lines 75-77): note the loop keeps testing the saved c
      let st := if c = '#' then commentLoop src (src.length + 1) c st0 else st0
      if pyIsSpace c then
        match advanceQ src st with
        | .error e => .error e
        | .ok st1 => lexLoop src fuel st1 tokens
      else if pyIsAlpha c || c = '_' then
        -- Identifier / Keyword / DataType (lines 84-100)
        let startPos : Position := ⟨st.column, st.row⟩
        let scanned := wordLoop src (src.length + 1) st []
        let word : String := ⟨scanned.1⟩
        lexLoop src fuel scanned.2 (tokens ++ [⟨classify_word word, word, startPos⟩])
      else if pyIsDigit c then
        -- Number (lines 103-112)
        let startPos : Position := ⟨st.column, st.row⟩
        let scanned := numLoop src (src.length + 1) st []
        lexLoop src fuel scanned.2 (tokens ++ [⟨.Number, ⟨scanned.1⟩, startPos⟩])
      else if c ∈ operator_map then
        -- Operator (lines 115-120)
        let t : Token := ⟨.Operator, ⟨[c]⟩, ⟨st.column, st.row⟩⟩
        match advanceQ src st with
        | .error e => .error e
        | .ok st1 => lexLoop src fuel st1 (tokens ++ [t])
      else if c ∈ delimiter_map then
        -- Delimiter (lines 123-128)
        let t : Token := ⟨.Delimiter, ⟨[c]⟩, ⟨st.column, st.row⟩⟩
        match advanceQ src st with
        | .error e => .error e
        | .ok st1 => lexLoop src fuel st1 (tokens ++ [t])
      else if c = '\"' then
        -- String literal (lines 131-142): the advance after the scan loop is
        -- unguarded, so an unclosed literal raises IndexError.
        let startPos : Position := ⟨st.column, st.row⟩
        match advanceQ src st with
        | .error e => .error e
        | .ok st1 =>
          let scanned := strLoop src (src.length + 1) st1 []
          match advanceQ src scanned.2 with
          | .error e => .error e
          | .ok st2 => lexLoop src fuel st2 (tokens ++ [⟨.StringLiteral, ⟨scanned.1⟩, startPos⟩])
      else
        -- unknown char, skip (lines 144-145); unguarded advance
        match advanceQ src st with
        | .error e => .error e
        | .ok st1 => lexLoop src fuel st1 tokens
    else
      .ok (tokens ++ [⟨.EOF, "EOF", ⟨st0.column, st0.row⟩⟩])

/-- `tokenize` (parser.py lines 56-151).  Every iteration of the main loop
advances the cursor by at least one character or raises, so `length + 1`
units of fuel cover every run of the Python loop. -/
def tokenize (source : String) : Except Err (List Token) :=
  lexLoop source.data (source.data.length + 1) ⟨0, 1, 1⟩ []

-- ===== Error helper (parser.py lines 154-155) =====
def get_error_message (msg : String) (position : Position) : String :=
  msg ++ " on line " ++ Nat.repr position.row ++ ", column " ++ Nat.repr position.coloums

/-- The AST node classes of src/astcollections.py, as one inductive: Python's
dynamically-typed node hierarchy puts every node in List fields annotated as
`List[Statement]`, so a single sum over all of the classes that the module
actually defines is the faithful model.  The module defines NO `Parameter` and
NO `Return` class, so there are no such constructors; the parser's attempts to
build them are modelled as `Err.attributeError` below. -/
inductive Ast where
  | DataType (name : String)
  | Undefined
  | NumberLiteral (value : String)
  | StringLiteral (value : String)
  | Identifier (name : String)
  | VariableDeclaration (name : String) (type : Ast) (value : Option Ast)
  | FunctionDeclaration (name : String) (return_type : Ast) (parameters : List Ast)
      (block : List Ast)
  | Program (statements : List Ast)

/-- `Parser.current_token` (lines 171-175): in-bounds index, otherwise
`self.tokens[-1]`, which on an empty list is itself an IndexError. -/
def current_token (toks : List Token) (i : Nat) : Except Err Token :=
  if h : i < toks.length then .ok (toks.get ⟨i, h⟩)
  else
    match toks.getLast? with
    | some t => .ok t
    | none => .error .indexError

/-- `Parser.look_ahead` (lines 167-169): `i + step < len(tokens) and
condition(tokens[i + step])`. -/
def look_ahead (toks : List Token) (i step : Nat) (condition : Token → Bool) : Bool :=
  if h : i + step < toks.length then condition (toks.get ⟨i + step, h⟩) else false

/-- `Parser.parse_expression` (lines 177-191).  The pair returned with each
node is the parser cursor after the production (Python mutates `self.i`). -/
def parse_expression (toks : List Token) (i : Nat) : Except Err (Ast × Nat) :=
  match current_token toks i with
  | .error e => .error e
  | .ok token =>
    match token.token_type with
    | .Number => .ok (.NumberLiteral token.value, i + 1)
    | .StringLiteral => .ok (.StringLiteral token.value, i + 1)
    | .Identifier => .ok (.Identifier token.value, i + 1)
    | _ => .error (.exception (get_error_message
        ("Unexpected token \x27" ++ token.value ++ "\x27") token.position))

/-- `Parser.parse_variable` (lines 193-214). -/
def parse_variable (toks : List Token) (i : Nat) : Except Err (Ast × Nat) :=
  match current_token toks i with
  | .error e => .error e
  | .ok t =>
    if t.token_type = .DataType then
      match current_token toks (i + 1) with
      | .error e => .error e
      | .ok t1 =>
        if t1.token_type = .Identifier then
          match current_token toks (i + 2) with
          | .error e => .error e
          | .ok t2 =>
            match (if t2.value = "=" then
                     match parse_expression toks (i + 3) with
                     | .error e => .error e
                     | .ok (e, j) => .ok (some e, j)
                   else (.ok (none, i + 2) : Except Err (Option Ast × Nat))) with
            | .error e => .error e
            | .ok (expr, j) =>
              match current_token toks j with
              | .error e => .error e
              | .ok t3 =>
                if t3.value = ";" then
                  .ok (.VariableDeclaration t1.value (.DataType t.value) expr, j + 1)
                else
                  .error (.exception (get_error_message
                    ("Expected \x27;\x27 after variable \x27" ++ t1.value ++ "\x27")
                    t3.position))
        else .error (.exception (get_error_message "Expected variable name" t1.position))
    else .error (.exception (get_error_message "Expected data type for variable" t.position))

/-- `Parser.parse_parameter` (lines 240-252).  After both checks succeed the
source evaluates `asts.Parameter(...)`, but astcollections.py defines no
`Parameter` class, so the call raises AttributeError before building anything
(Python resolves the attribute before evaluating the arguments). -/
def parse_parameter (toks : List Token) (i : Nat) : Except Err (Ast × Nat) :=
  match current_token toks i with
  | .error e => .error e
  | .ok t =>
    if t.token_type = .DataType then
      match current_token toks (i + 1) with
      | .error e => .error e
      | .ok t1 =>
        if t1.token_type = .Identifier then
          .error (.attributeError "Parameter")
        else .error (.exception (get_error_message "Expected parameter name" t1.position))
    else .error (.exception (get_error_message "Expected parameter type" t.position))

/-- `Parser.parse_return` (lines 289-299).  Both exits construct `asts.Return`,
which astcollections.py does not define, so both exits raise AttributeError. -/
def parse_return (toks : List Token) (i : Nat) : Except Err (Ast × Nat) :=
  match current_token toks (i + 1) with
  | .error e => .error e
  | .ok t =>
    if t.value = ";" then
      .error (.attributeError "Return")
    else
      match parse_expression toks (i + 1) with
      | .error e => .error e
      | .ok (_, j) =>
        match current_token toks j with
        | .error e => .error e
        | .ok t1 =>
          if t1.value = ";" then
            .error (.attributeError "Return")
          else
            .error (.exception (get_error_message
              "Expected \x27;\x27 after return expression" t1.position))

mutual
/-- The `while True` parameter loop inside `parse_function` (lines 273-280):
parse one parameter, then continue past a comma or stop. -/
def paramLoop (toks : List Token) : Nat → Nat → List Ast → Except Err (List Ast × Nat)
  | 0, _, _ => .error .outOfFuel
  | fuel + 1, i, acc =>
    match parse_parameter toks i with
    | .error e => .error e
    | .ok (p, i1) =>
      match current_token toks i1 with
      | .error e => .error e
      | .ok t =>
        if t.value = "," then paramLoop toks fuel (i1 + 1) (acc ++ [p])
        else .ok (acc ++ [p], i1)

/-- `Parser.parse_function` (lines 254-287). -/
def parse_function (toks : List Token) : Nat → Nat → Except Err (Ast × Nat)
  | 0, _ => .error .outOfFuel
  | fuel + 1, i =>
    -- consume FUNCTION_KEYWORD, then return type, name, parens, block
    match current_token toks (i + 1) with
    | .error e => .error e
    | .ok t =>
      if t.token_type = .DataType then
        match current_token toks (i + 2) with
        | .error e => .error e
        | .ok t1 =>
          if t1.token_type = .Identifier then
            match current_token toks (i + 3) with
            | .error e => .error e
            | .ok t2 =>
              if t2.value = "(" then
                match current_token toks (i + 4) with
                | .error e => .error e
                | .ok t3 =>
                  match (if t3.value ≠ ")" then paramLoop toks fuel (i + 4) []
                         else .ok ([], i + 4)) with
                  | .error e => .error e
                  | .ok (param, i5) =>
                    match current_token toks i5 with
                    | .error e => .error e
                    | .ok t4 =>
                      if t4.value = ")" then
                        match parse_block toks fuel (i5 + 1) with
                        | .error e => .error e
                        | .ok (body, i6) =>
                          .ok (.FunctionDeclaration t1.value (.DataType t.value) param body,
                               i6)
                      else .error (.exception (get_error_message
                        "Expected \x27)\x27 after function parameters" t4.position))
              else .error (.exception (get_error_message
                "Expected \x27(\x27 after function name" t2.position))
          else .error (.exception (get_error_message "Expected function name" t1.position))
      else .error (.exception (get_error_message "Expected return type for function" t.position))

/-- `Parser.parse_block` (lines 216-221 and 237): leading `:` then the
statement loop, then consume the closing `done`. -/
def parse_block (toks : List Token) : Nat → Nat → Except Err (List Ast × Nat)
  | 0, _ => .error .outOfFuel
  | fuel + 1, i =>
    match current_token toks i with
    | .error e => .error e
    | .ok t =>
      if t.value = ":" then blockLoop toks fuel (i + 1) []
      else .error (.exception (get_error_message "Expected \x27:\x27 to start block" t.position))

/-- The statement loop of `parse_block` (lines 222-236).  A Keyword token whose
value is neither `function` nor `return` (nor `done`, which exits the loop)
matches no branch and the Python loop spins forever at the same cursor; that is
the branch that recurses without advancing and only fuel stops it. -/
def blockLoop (toks : List Token) : Nat → Nat → List Ast → Except Err (List Ast × Nat)
  | 0, _, _ => .error .outOfFuel
  | fuel + 1, i, stmts =>
    match current_token toks i with
    | .error e => .error e
    | .ok t =>
      if t.value = "done" then .ok (stmts, i + 1)
      else
        match t.token_type with
        | .DataType =>
          match parse_variable toks i with
          | .error e => .error e
          | .ok (v, i1) => blockLoop toks fuel i1 (stmts ++ [v])
        | .Keyword =>
          if t.value = "function" then
            match parse_function toks fuel i with
            | .error e => .error e
            | .ok (f, i1) => blockLoop toks fuel i1 (stmts ++ [f])
          else if t.value = "return" then
            match parse_return toks i with
            | .error e => .error e
            | .ok (r, i1) => blockLoop toks fuel i1 (stmts ++ [r])
          else blockLoop toks fuel i stmts
        | _ =>
          match parse_expression toks i with
          | .error e => .error e
          | .ok (e, i1) => blockLoop toks fuel i1 (stmts ++ [e])

/-- The top-level loop of `Parser.parse` (lines 301-319): a DataType token
starts a variable declaration, keyword `function` a function declaration, and
everything else is skipped by one position; stops at an EOF-typed token. -/
def parseLoop (toks : List Token) : Nat → Nat → List Ast → Except Err (List Ast)
  | 0, _, _ => .error .outOfFuel
  | fuel + 1, i, acc =>
    match current_token toks i with
    | .error e => .error e
    | .ok t =>
      if t.token_type = .EOF then .ok acc
      else
        match t.token_type with
        | .DataType =>
          match parse_variable toks i with
          | .error e => .error e
          | .ok (v, i1) => parseLoop toks fuel i1 (acc ++ [v])
        | .Keyword =>
          if t.value = "function" then
            match parse_function toks fuel i with
            | .error e => .error e
            | .ok (f, i1) => parseLoop toks fuel i1 (acc ++ [f])
          else parseLoop toks fuel (i + 1) acc
        | _ => parseLoop toks fuel (i + 1) acc
end

/-- `parse_sc` (lines 323-326): run `Parser.parse` from cursor 0 and wrap the
statements in a Program.  The fuel `2 * length + 2` is proved sufficient below
for every token sequence of the shape `tokenize` produces. -/
def parse_sc (tokens : List Token) : Except Err Ast :=
  match parseLoop tokens (2 * tokens.length + 2) 0 [] with
  | .error e => .error e
  | .ok l => .ok (.Program l)

/-- The front-end pipeline as main.py drives it: scan, then parse. -/
def compile_sc (source : String) : Except Err Ast :=
  match tokenize source with
  | .error e => .error e
  | .ok toks => parse_sc toks

mutual
/-- Every DataType node inside the tree carries a name from the scanner's
closed data-type set. -/
def dtOkA : Ast → Bool
  | .DataType n => decide (n ∈ data_type_map)
  | .Undefined => true
  | .NumberLiteral _ => true
  | .StringLiteral _ => true
  | .Identifier _ => true
  | .VariableDeclaration _ ty v =>
    dtOkA ty && (match v with | some e => dtOkA e | none => true)
  | .FunctionDeclaration _ rt ps blk => dtOkA rt && dtOkL ps && dtOkL blk
  | .Program ss => dtOkL ss

/-- `dtOkA` over every element of a list of nodes. -/
def dtOkL : List Ast → Bool
  | [] => true
  | a :: rest => dtOkA a && dtOkL rest
end


-- Equality of scanner results is decidable, letting concrete runs be checked
-- by evaluation.
deriving instance DecidableEq for Except

-- =====================================================================
-- Helper facts: concrete scanner runs used by several proofs
-- =====================================================================

theorem tok_int_x : tokenize "int x;"
    = .ok [⟨.DataType, "int", ⟨1, 1⟩⟩, ⟨.Identifier, "x", ⟨5, 1⟩⟩,
        ⟨.Delimiter, ";", ⟨6, 1⟩⟩, ⟨.EOF, "EOF", ⟨7, 1⟩⟩] := by decide

theorem tok_fun_done : tokenize "function void f(): done"
    = .ok [⟨.Keyword, "function", ⟨1, 1⟩⟩, ⟨.DataType, "void", ⟨10, 1⟩⟩,
        ⟨.Identifier, "f", ⟨15, 1⟩⟩, ⟨.Delimiter, "(", ⟨16, 1⟩⟩,
        ⟨.Delimiter, ")", ⟨17, 1⟩⟩, ⟨.Delimiter, ":", ⟨18, 1⟩⟩,
        ⟨.Keyword, "done", ⟨20, 1⟩⟩, ⟨.EOF, "EOF", ⟨24, 1⟩⟩] := by decide

theorem tok_fun_param : tokenize "function void f(int x): done"
    = .ok [⟨.Keyword, "function", ⟨1, 1⟩⟩, ⟨.DataType, "void", ⟨10, 1⟩⟩,
        ⟨.Identifier, "f", ⟨15, 1⟩⟩, ⟨.Delimiter, "(", ⟨16, 1⟩⟩,
        ⟨.DataType, "int", ⟨17, 1⟩⟩, ⟨.Identifier, "x", ⟨21, 1⟩⟩,
        ⟨.Delimiter, ")", ⟨22, 1⟩⟩, ⟨.Delimiter, ":", ⟨23, 1⟩⟩,
        ⟨.Keyword, "done", ⟨25, 1⟩⟩, ⟨.EOF, "EOF", ⟨29, 1⟩⟩] := by decide

theorem tok_fun_return : tokenize "function void f(): return; done"
    = .ok [⟨.Keyword, "function", ⟨1, 1⟩⟩, ⟨.DataType, "void", ⟨10, 1⟩⟩,
        ⟨.Identifier, "f", ⟨15, 1⟩⟩, ⟨.Delimiter, "(", ⟨16, 1⟩⟩,
        ⟨.Delimiter, ")", ⟨17, 1⟩⟩, ⟨.Delimiter, ":", ⟨18, 1⟩⟩,
        ⟨.Keyword, "return", ⟨20, 1⟩⟩, ⟨.Delimiter, ";", ⟨26, 1⟩⟩,
        ⟨.Keyword, "done", ⟨28, 1⟩⟩, ⟨.EOF, "EOF", ⟨32, 1⟩⟩] := by decide

theorem tok_int_x_eq_semi : tokenize "int x = ;"
    = .ok [⟨.DataType, "int", ⟨1, 1⟩⟩, ⟨.Identifier, "x", ⟨5, 1⟩⟩,
        ⟨.Operator, "=", ⟨7, 1⟩⟩, ⟨.Delimiter, ";", ⟨9, 1⟩⟩,
        ⟨.EOF, "EOF", ⟨10, 1⟩⟩] := by decide

-- =====================================================================
-- Claim theorems: concrete evaluations
-- =====================================================================

/-- C1: the claim that the Scanner never fails is refuted by the code: the
comment loop at parser.py line 76 tests the saved character `c` (which stays
`#`) instead of the current one, so it consumes input to the very end and the
subsequent unknown-character `advance()` indexes past the end of the source,
an IndexError; the unguarded `advance()` at line 138 likewise raises on a
string literal that is never closed. -/
theorem tokenize_raises_on_comment_and_unclosed_string :
    tokenize "#" = .error .indexError ∧ tokenize "\"ab" = .error .indexError := by
  exact ⟨by decide, by decide⟩

/-- C2: an input consisting only of whitespace and a `#` comment does not
yield the single EndOfInput token the claim promises: the comment loop never
stops at the newline (it tests the saved `c`), runs to the end of the input
and the fall-through unknown-character `advance()` raises IndexError.  For
whitespace alone (no comment) the claimed behaviour does hold. -/
theorem tokenize_comment_only_input_crashes :
    tokenize "#\n" = .error .indexError ∧
    tokenize " \n\t " = .ok [⟨.EOF, "EOF", ⟨3, 2⟩⟩] := by
  exact ⟨by decide, by decide⟩

/-- C3: parsing `return;` or `return 5;` does not produce a Return node:
astcollections.py defines no `Return` class, so both exits of
`Parser.parse_return` raise AttributeError when they evaluate `asts.Return`.
The whole pipeline on a function whose body is `return;` fails the same way. -/
theorem parse_return_raises_attributeError :
    parse_return [⟨.Keyword, "return", ⟨0, 0⟩⟩, ⟨.Delimiter, ";", ⟨0, 0⟩⟩,
        ⟨.EOF, "EOF", ⟨0, 0⟩⟩] 0 = .error (.attributeError "Return") ∧
    parse_return [⟨.Keyword, "return", ⟨0, 0⟩⟩, ⟨.Number, "5", ⟨0, 0⟩⟩,
        ⟨.Delimiter, ";", ⟨0, 0⟩⟩, ⟨.EOF, "EOF", ⟨0, 0⟩⟩] 0
      = .error (.attributeError "Return") ∧
    compile_sc "function void f(): return; done" = .error (.attributeError "Return") := by
  refine ⟨rfl, rfl, ?_⟩
  unfold compile_sc
  rw [tok_fun_return]
  rfl

/-- C4: a function declaration with an empty parameter list parses as claimed,
but as soon as one parameter must be built, `Parser.parse_parameter` evaluates
`asts.Parameter`, which astcollections.py does not define: AttributeError, no
FunctionDeclaration is produced for `function void f(int x): done`. -/
theorem parse_function_parameter_raises_attributeError :
    compile_sc "function void f(): done"
      = .ok (.Program [.FunctionDeclaration "f" (.DataType "void") [] []]) ∧
    compile_sc "function void f(int x): done" = .error (.attributeError "Parameter") := by
  constructor
  · unfold compile_sc
    rw [tok_fun_done]
    rfl
  · unfold compile_sc
    rw [tok_fun_param]
    rfl

/-- C5, counterexample: `tokenize` does not return a token sequence for every
input text; on `EOF#` (which even contains the word EOF) the broken comment
skip runs off the end of the input and IndexError is raised, so there is no
output sequence at all. -/
theorem tokenize_not_total_counterexample :
    tokenize "EOF#" = .error .indexError := by
  decide

/-- C6: the six-token sequence for `int x = 5;` parses to a Program holding
one VariableDeclaration with NumberLiteral initializer, and `int x;` (no
initializer) parses to a VariableDeclaration whose initializer is None. -/
theorem parse_variable_declaration_results :
    parse_sc [⟨.DataType, "int", ⟨0, 0⟩⟩, ⟨.Identifier, "x", ⟨0, 0⟩⟩,
        ⟨.Operator, "=", ⟨0, 0⟩⟩, ⟨.Number, "5", ⟨0, 0⟩⟩,
        ⟨.Delimiter, ";", ⟨0, 0⟩⟩, ⟨.EOF, "EOF", ⟨0, 0⟩⟩]
      = .ok (.Program [.VariableDeclaration "x" (.DataType "int")
          (some (.NumberLiteral "5"))]) ∧
    compile_sc "int x;"
      = .ok (.Program [.VariableDeclaration "x" (.DataType "int") none]) := by
  constructor
  · rfl
  · unfold compile_sc
    rw [tok_int_x]
    rfl

/-- C7: on `int x = ;` the parse fails with a single Exception whose message is
produced by `get_error_message`, names the unexpected `;` and carries exactly
that token's position (column 9, row 1 — the position `tokenize` put on the
`;` token); the result is an error, so no partial tree is returned. -/
theorem unexpected_semicolon_error_at_token_position :
    tokenize "int x = ;"
      = .ok [⟨.DataType, "int", ⟨1, 1⟩⟩, ⟨.Identifier, "x", ⟨5, 1⟩⟩,
          ⟨.Operator, "=", ⟨7, 1⟩⟩, ⟨.Delimiter, ";", ⟨9, 1⟩⟩,
          ⟨.EOF, "EOF", ⟨10, 1⟩⟩] ∧
    compile_sc "int x = ;"
      = .error (.exception (get_error_message "Unexpected token ';'" ⟨9, 1⟩)) ∧
    get_error_message "Unexpected token ';'" ⟨9, 1⟩
      = "Unexpected token ';' on line 1, column 9" := by
  refine ⟨tok_int_x_eq_semi, ?_, by decide⟩
  unfold compile_sc
  rw [tok_int_x_eq_semi]
  rfl

/-- C9: with a non-empty token list, `current_token` never indexes out of
bounds: it returns an element of the list, and whenever the cursor is at or
past the end it returns the last token; `look_ahead` is false whenever the
inspected offset is past the end. -/
theorem current_token_clamps_look_ahead_bounded (toks : List Token)
    (h : toks ≠ []) (i : Nat) :
    (∃ t, current_token toks i = .ok t ∧ t ∈ toks) ∧
    (toks.length ≤ i → ∃ t, toks.getLast? = some t ∧ current_token toks i = .ok t) ∧
    (∀ step cond, toks.length ≤ i + step → look_ahead toks i step cond = false) := by
  refine ⟨?_, ?_, ?_⟩
  · by_cases hlt : i < toks.length
    · exact ⟨toks.get ⟨i, hlt⟩, by unfold current_token; rw [dif_pos hlt],
        List.get_mem toks i hlt⟩
    · refine ⟨toks.getLast h, ?_, List.getLast_mem h⟩
      unfold current_token
      rw [dif_neg hlt, List.getLast?_eq_getLast_of_ne_nil h]
  · intro hge
    refine ⟨toks.getLast h, List.getLast?_eq_getLast_of_ne_nil h, ?_⟩
    unfold current_token
    rw [dif_neg (by omega), List.getLast?_eq_getLast_of_ne_nil h]
  · intro step cond hge
    unfold look_ahead
    rw [dif_neg (by omega)]

/-- Witness for C9 at a concrete two-token list with the cursor far past the
end. -/
theorem current_token_clamps_look_ahead_bounded_witness :
    (∃ t, current_token [⟨.Number, "1", ⟨1, 1⟩⟩, ⟨.EOF, "EOF", ⟨2, 1⟩⟩] 7 = .ok t ∧
        t ∈ [⟨.Number, "1", ⟨1, 1⟩⟩, ⟨.EOF, "EOF", ⟨2, 1⟩⟩]) ∧
    ((⟨.Number, "1", ⟨1, 1⟩⟩ :: [⟨.EOF, "EOF", ⟨2, 1⟩⟩] : List Token).length ≤ 7 →
      ∃ t, ([⟨.Number, "1", ⟨1, 1⟩⟩, ⟨.EOF, "EOF", ⟨2, 1⟩⟩] : List Token).getLast?
          = some t ∧
        current_token [⟨.Number, "1", ⟨1, 1⟩⟩, ⟨.EOF, "EOF", ⟨2, 1⟩⟩] 7 = .ok t) ∧
    (∀ step cond,
      ([⟨.Number, "1", ⟨1, 1⟩⟩, ⟨.EOF, "EOF", ⟨2, 1⟩⟩] : List Token).length ≤ 7 + step →
      look_ahead [⟨.Number, "1", ⟨1, 1⟩⟩, ⟨.EOF, "EOF", ⟨2, 1⟩⟩] 7 step cond = false) :=
  current_token_clamps_look_ahead_bounded
    [⟨.Number, "1", ⟨1, 1⟩⟩, ⟨.EOF, "EOF", ⟨2, 1⟩⟩] (by simp) 7

-- =====================================================================
-- Scanner structure: every successful run appends exactly one EOF token
-- =====================================================================


theorem classify_word_spec (w : String) :
    classify_word w ≠ .EOF ∧ (classify_word w = .DataType → w ∈ data_type_map) := by
  unfold classify_word
  split
  · exact ⟨by decide, by intro hc; cases hc⟩
  · split
    · rename_i hdt
      exact ⟨by decide, fun _ => hdt⟩
    · exact ⟨by decide, by intro hc; cases hc⟩

theorem decomp_push {acc : List Token} {tok : Token} {mid : List Token} {pos : Position}
    {ts : List Token}
    (hts : ts = (acc ++ [tok]) ++ (mid ++ [⟨.EOF, "EOF", pos⟩])) :
    ts = acc ++ ((tok :: mid) ++ [⟨.EOF, "EOF", pos⟩]) := by
  subst hts; simp

theorem decomp_cons_ok {tok : Token} {mid : List Token}
    (h1 : tok.token_type ≠ .EOF ∧ (tok.token_type = .DataType → tok.value ∈ data_type_map))
    (h2 : ∀ t ∈ mid, t.token_type ≠ .EOF ∧
      (t.token_type = .DataType → t.value ∈ data_type_map)) :
    ∀ t ∈ tok :: mid, t.token_type ≠ .EOF ∧
      (t.token_type = .DataType → t.value ∈ data_type_map) := by
  intro t ht
  rcases List.mem_cons.1 ht with rfl | ht2
  · exact h1
  · exact h2 t ht2

theorem lexLoop_ok_decomp (src : List Char) : ∀ fuel st acc ts,
    lexLoop src fuel st acc = .ok ts →
    ∃ mid pos, ts = acc ++ (mid ++ [⟨.EOF, "EOF", pos⟩]) ∧
      ∀ t ∈ mid, t.token_type ≠ .EOF ∧
        (t.token_type = .DataType → t.value ∈ data_type_map) := by
  intro fuel
  induction fuel with
  | zero => intro st acc ts h; simp [lexLoop] at h
  | succ fuel ih =>
    intro st acc ts h
    simp only [lexLoop] at h
    split at h
    case isFalse =>
      refine ⟨[], ⟨st.column, st.row⟩, ?_, by simp⟩
      cases h
      simp
    case isTrue hin =>
      split at h
      -- pyIsSpace branch
      case isTrue =>
        split at h
        case h_1 => cases h
        case h_2 => exact ih _ _ _ h
      case isFalse =>
        split at h
        -- word branch
        case isTrue =>
          obtain ⟨mid, pos, hts, hmid⟩ := ih _ _ _ h
          exact ⟨_ :: mid, pos, decomp_push hts, decomp_cons_ok (classify_word_spec _) hmid⟩
        case isFalse =>
          split at h
          -- number branch
          case isTrue =>
            obtain ⟨mid, pos, hts, hmid⟩ := ih _ _ _ h
            exact ⟨_ :: mid, pos, decomp_push hts,
              decomp_cons_ok ⟨by simp, by simp⟩ hmid⟩
          case isFalse =>
            split at h
            -- operator branch
            case isTrue =>
              split at h
              case h_1 => cases h
              case h_2 =>
                obtain ⟨mid, pos, hts, hmid⟩ := ih _ _ _ h
                exact ⟨_ :: mid, pos, decomp_push hts,
                  decomp_cons_ok ⟨by simp, by simp⟩ hmid⟩
            case isFalse =>
              split at h
              -- delimiter branch
              case isTrue =>
                split at h
                case h_1 => cases h
                case h_2 =>
                  obtain ⟨mid, pos, hts, hmid⟩ := ih _ _ _ h
                  exact ⟨_ :: mid, pos, decomp_push hts,
                    decomp_cons_ok ⟨by simp, by simp⟩ hmid⟩
              case isFalse =>
                split at h
                -- string-literal branch
                case isTrue =>
                  split at h
                  case h_1 => cases h
                  case h_2 =>
                    split at h
                    case h_1 => cases h
                    case h_2 =>
                      obtain ⟨mid, pos, hts, hmid⟩ := ih _ _ _ h
                      exact ⟨_ :: mid, pos, decomp_push hts,
                        decomp_cons_ok ⟨by simp, by simp⟩ hmid⟩
                -- unknown-character branch
                case isFalse =>
                  split at h
                  case h_1 => cases h
                  case h_2 => exact ih _ _ _ h

theorem tokenize_ok_tokens (s : String) (ts : List Token) (h : tokenize s = .ok ts) :
    ∃ mid pos, ts = mid ++ [⟨.EOF, "EOF", pos⟩] ∧
      ∀ t ∈ mid, t.token_type ≠ .EOF ∧
        (t.token_type = .DataType → t.value ∈ data_type_map) := by
  unfold tokenize at h
  obtain ⟨mid, pos, hts, hmid⟩ := lexLoop_ok_decomp _ _ _ _ _ h
  exact ⟨mid, pos, by simpa using hts, hmid⟩

theorem tokenize_ok_single_trailing_eof (s : String) (ts : List Token)
    (h : tokenize s = .ok ts) :
    (∃ pos, ts.getLast? = some ⟨.EOF, "EOF", pos⟩) ∧
    ts.countP (fun t => t.token_type == .EOF) = 1 := by
  obtain ⟨mid, pos, rfl, hmid⟩ := tokenize_ok_tokens s ts h
  constructor
  · exact ⟨pos, by simp⟩
  · rw [List.countP_append]
    have h0 : mid.countP (fun t => t.token_type == .EOF) = 0 := by
      rw [List.countP_eq_zero]
      intro t ht
      simpa using (hmid t ht).1
    simp [h0]

theorem tokenize_datatype_values (s : String) (ts : List Token)
    (h : tokenize s = .ok ts) :
    ∀ t ∈ ts, t.token_type = .DataType → t.value ∈ data_type_map := by
  obtain ⟨mid, pos, rfl, hmid⟩ := tokenize_ok_tokens s ts h
  intro t ht hdt
  rcases List.mem_append.1 ht with hm | hl
  · exact (hmid t hm).2 hdt
  · simp at hl
    subst hl
    simp at hdt

theorem tokenize_ok_single_trailing_eof_witness :
    (∃ pos, ([⟨.Identifier, "x", ⟨1, 1⟩⟩, ⟨.EOF, "EOF", ⟨2, 1⟩⟩] : List Token).getLast?
        = some ⟨.EOF, "EOF", pos⟩) ∧
    ([⟨.Identifier, "x", ⟨1, 1⟩⟩, ⟨.EOF, "EOF", ⟨2, 1⟩⟩] : List Token).countP
        (fun t => t.token_type == .EOF) = 1 :=
  tokenize_ok_single_trailing_eof "x" [⟨.Identifier, "x", ⟨1, 1⟩⟩, ⟨.EOF, "EOF", ⟨2, 1⟩⟩]
    (by decide)

-- =====================================================================
-- Parser structure: DataType nodes only carry scanner-approved names
-- =====================================================================

theorem current_token_mem {toks : List Token} {i : Nat} {t : Token}
    (h : current_token toks i = .ok t) : t ∈ toks := by
  unfold current_token at h
  split at h
  · cases h
    exact List.get_mem toks i _
  · split at h
    · rename_i t2 heq
      cases h
      obtain ⟨hne, heq2⟩ := List.mem_getLast?_eq_getLast heq
      rw [heq2]
      exact List.getLast_mem hne
    · cases h

theorem parse_expression_dtOk {toks : List Token} {i : Nat} {e : Ast} {j : Nat}
    (h : parse_expression toks i = .ok (e, j)) : dtOkA e = true := by
  unfold parse_expression at h
  split at h
  · cases h
  · split at h
    · cases h; rfl
    · cases h; rfl
    · cases h; rfl
    · cases h

theorem parse_parameter_never_ok {toks : List Token} {i : Nat} {r : Ast × Nat} :
    parse_parameter toks i ≠ .ok r := by
  intro h
  unfold parse_parameter at h
  split at h
  · cases h
  · split at h
    · split at h
      · cases h
      · split at h <;> cases h
    · cases h

theorem parse_return_never_ok {toks : List Token} {i : Nat} {r : Ast × Nat} :
    parse_return toks i ≠ .ok r := by
  intro h
  unfold parse_return at h
  split at h
  · cases h
  · split at h
    · cases h
    · split at h
      · cases h
      · split at h
        · cases h
        · split at h <;> cases h

theorem paramLoop_never_ok {toks : List Token} {fuel i : Nat} {a : List Ast}
    {r : List Ast × Nat} : paramLoop toks fuel i a ≠ .ok r := by
  intro h
  match fuel with
  | 0 => simp [paramLoop] at h
  | fuel + 1 =>
    simp only [paramLoop] at h
    split at h
    · cases h
    · rename_i p heq
      exact parse_parameter_never_ok heq

theorem dtOkA_dataType (n : String) :
    dtOkA (Ast.DataType n) = decide (n ∈ data_type_map) := by
  conv_lhs => rw [dtOkA.eq_def]

theorem dtOkA_varDecl (n : String) (ty : Ast) (v : Option Ast) :
    dtOkA (Ast.VariableDeclaration n ty v)
      = (dtOkA ty && (match v with | some e => dtOkA e | none => true)) := by
  conv_lhs => rw [dtOkA.eq_def]

theorem dtOkA_funDecl (n : String) (rt : Ast) (ps blk : List Ast) :
    dtOkA (Ast.FunctionDeclaration n rt ps blk) = (dtOkA rt && dtOkL ps && dtOkL blk) := by
  conv_lhs => rw [dtOkA.eq_def]

theorem dtOkA_program (ss : List Ast) : dtOkA (Ast.Program ss) = dtOkL ss := by
  conv_lhs => rw [dtOkA.eq_def]

theorem dtOkL_append (l1 l2 : List Ast) : dtOkL (l1 ++ l2) = (dtOkL l1 && dtOkL l2) := by
  induction l1 with
  | nil => simp [dtOkL]
  | cons a r ih => simp [dtOkL, ih, Bool.and_assoc]

theorem parse_variable_dtOk {toks : List Token}
    (HT : ∀ t ∈ toks, t.token_type = .DataType → t.value ∈ data_type_map)
    {i : Nat} {v : Ast} {j : Nat}
    (h : parse_variable toks i = .ok (v, j)) : dtOkA v = true := by
  unfold parse_variable at h
  split at h
  · cases h
  · rename_i t heqt
    split at h
    case isTrue hdt =>
      split at h
      · cases h
      · rename_i t1 heq1
        split at h
        case isTrue hid =>
          split at h
          · cases h
          · rename_i t2 heq2
            split at h
            · cases h
            · rename_i expr0 j3 heqpr
              split at h
              · cases h
              · rename_i t3 heq3
                split at h
                case isTrue hsemi =>
                  cases h
                  rw [dtOkA_varDecl, Bool.and_eq_true, dtOkA_dataType]
                  refine ⟨decide_eq_true (HT t (current_token_mem heqt) hdt), ?_⟩
                  by_cases he : t2.value = "="
                  · rw [if_pos he] at heqpr
                    split at heqpr
                    · cases heqpr
                    · rename_i e0 j0 heqe
                      cases heqpr
                      simpa using parse_expression_dtOk heqe
                  · rw [if_neg he] at heqpr
                    cases heqpr
                    rfl
                case isFalse => cases h
        case isFalse => cases h
    case isFalse => cases h

theorem dtOkL_nil : dtOkL [] = true := by simp [dtOkL]

theorem dtOkL_cons (a : Ast) (l : List Ast) : dtOkL (a :: l) = (dtOkA a && dtOkL l) := by
  simp [dtOkL]

theorem parser_dtOk (toks : List Token)
    (HT : ∀ t ∈ toks, t.token_type = .DataType → t.value ∈ data_type_map) :
    ∀ fuel : Nat,
    (∀ i f j, parse_function toks fuel i = .ok (f, j) → dtOkA f = true) ∧
    (∀ i l j, parse_block toks fuel i = .ok (l, j) → dtOkL l = true) ∧
    (∀ i s l j, blockLoop toks fuel i s = .ok (l, j) → dtOkL s = true → dtOkL l = true) ∧
    (∀ i a l, parseLoop toks fuel i a = .ok l → dtOkL a = true → dtOkL l = true) := by
  intro fuel
  induction fuel with
  | zero =>
    refine ⟨?_, ?_, ?_, ?_⟩
    · intro i f j h; simp [parse_function] at h
    · intro i l j h; simp [parse_block] at h
    · intro i s l j h; simp [blockLoop] at h
    · intro i a l h; simp [parseLoop] at h
  | succ fuel ih =>
    obtain ⟨ihf, ihpb, ihb, ihl⟩ := ih
    refine ⟨?_, ?_, ?_, ?_⟩
    · -- parse_function
      intro i f j h
      simp only [parse_function] at h
      split at h
      · cases h
      · rename_i t heqt
        split at h
        case isTrue hdt =>
          split at h
          · cases h
          · rename_i t1 heq1
            split at h
            case isTrue hid =>
              split at h
              · cases h
              · rename_i t2 heq2
                split at h
                case isTrue hlp =>
                  split at h
                  · cases h
                  · rename_i t3 heq3
                    split at h
                    · cases h
                    · rename_i param i5 heqp
                      split at h
                      · cases h
                      · rename_i t4 heq4
                        split at h
                        case isTrue hrp =>
                          split at h
                          · cases h
                          · rename_i body i6 heqb
                            cases h
                            rw [dtOkA_funDecl, Bool.and_eq_true, Bool.and_eq_true,
                              dtOkA_dataType]
                            refine ⟨⟨decide_eq_true (HT t (current_token_mem heqt) hdt),
                              ?_⟩, ihpb _ _ _ heqb⟩
                            by_cases hne : t3.value ≠ ")"
                            · rw [if_pos hne] at heqp
                              exact absurd heqp paramLoop_never_ok
                            · rw [if_neg hne] at heqp
                              cases heqp
                              exact dtOkL_nil
                        case isFalse => cases h
                case isFalse => cases h
            case isFalse => cases h
        case isFalse => cases h
    · -- parse_block
      intro i l j h
      simp only [parse_block] at h
      split at h
      · cases h
      · rename_i t heqt
        split at h
        case isTrue => exact ihb _ _ _ _ h dtOkL_nil
        case isFalse => cases h
    · -- blockLoop
      intro i s l j h hs
      simp only [blockLoop] at h
      split at h
      · cases h
      · rename_i t heqt
        split at h
        case isTrue =>
          cases h
          exact hs
        case isFalse =>
          split at h
          · -- DataType statement
            split at h
            · cases h
            · rename_i v i1 heqv
              exact ihb _ _ _ _ h
                (by simp [dtOkL_append, dtOkL_cons, dtOkL_nil, hs,
                  parse_variable_dtOk HT heqv])
          · -- Keyword
            split at h
            case isTrue =>
              split at h
              · cases h
              · rename_i f i1 heqf
                exact ihb _ _ _ _ h
                  (by simp [dtOkL_append, dtOkL_cons, dtOkL_nil, hs, ihf _ _ _ heqf])
            case isFalse =>
              split at h
              case isTrue =>
                split at h
                · cases h
                · rename_i r i1 heqr
                  exact absurd heqr parse_return_never_ok
              case isFalse => exact ihb _ _ _ _ h hs
          · -- expression statement
            split at h
            · cases h
            · rename_i e i1 heqe
              exact ihb _ _ _ _ h
                (by simp [dtOkL_append, dtOkL_cons, dtOkL_nil, hs,
                  parse_expression_dtOk heqe])
    · -- parseLoop
      intro i a l h ha
      simp only [parseLoop] at h
      split at h
      · cases h
      · rename_i t heqt
        split at h
        case isTrue =>
          cases h
          exact ha
        case isFalse =>
          split at h
          · split at h
            · cases h
            · rename_i v i1 heqv
              exact ihl _ _ _ h
                (by simp [dtOkL_append, dtOkL_cons, dtOkL_nil, ha,
                  parse_variable_dtOk HT heqv])
          · split at h
            case isTrue =>
              split at h
              · cases h
              · rename_i f i1 heqf
                exact ihl _ _ _ h
                  (by simp [dtOkL_append, dtOkL_cons, dtOkL_nil, ha, ihf _ _ _ heqf])
            case isFalse => exact ihl _ _ _ h ha
          · exact ihl _ _ _ h ha

/-- C8: every DataType node in an AST parsed from scanner output carries a name
from the closed set recognized by the scanner: `tokenize` classifies a word as
a DataType token only when it lies in data_type_map (anything else becomes an
Identifier), and the parser builds `asts.DataType` only from the value of a
DataType-classified token (in parse_variable and parse_function; the
parse_parameter site can never complete, see C4). -/
theorem parsed_datatype_names_in_closed_set (s : String) (toks : List Token) (prog : Ast)
    (h1 : tokenize s = .ok toks) (h2 : parse_sc toks = .ok prog) : dtOkA prog = true := by
  have HT := tokenize_datatype_values s toks h1
  unfold parse_sc at h2
  split at h2
  · cases h2
  · rename_i l heql
    cases h2
    rw [dtOkA_program]
    exact (parser_dtOk toks HT _).2.2.2 _ _ _ heql dtOkL_nil

theorem parsed_datatype_names_in_closed_set_witness :
    dtOkA (.Program [.VariableDeclaration "x" (.DataType "int") none]) = true :=
  parsed_datatype_names_in_closed_set "int x;"
    [⟨.DataType, "int", ⟨1, 1⟩⟩, ⟨.Identifier, "x", ⟨5, 1⟩⟩,
     ⟨.Delimiter, ";", ⟨6, 1⟩⟩, ⟨.EOF, "EOF", ⟨7, 1⟩⟩]
    (.Program [.VariableDeclaration "x" (.DataType "int") none])
    (by decide) (by rfl)

-- =====================================================================
-- Parser termination: the fuel bound of parse_sc is never the reason a run
-- stops, for token sequences of the shape the scanner produces
-- =====================================================================

theorem cur_ok {toks : List Token} {lt : Token} (h1 : toks.getLast? = some lt)
    (i : Nat) : ∃ t, current_token toks i = .ok t := by
  unfold current_token
  split
  · exact ⟨_, rfl⟩
  · rw [h1]
    exact ⟨lt, rfl⟩

theorem cur_ge {toks : List Token} {lt : Token} (h1 : toks.getLast? = some lt)
    {i : Nat} (hge : toks.length ≤ i) : current_token toks i = .ok lt := by
  unfold current_token
  rw [dif_neg (by omega), h1]

theorem cur_lt_of_value_ne {toks : List Token} {lt : Token}
    (h1 : toks.getLast? = some lt) (h3 : lt.value = "EOF") {i : Nat} {t : Token}
    (h : current_token toks i = .ok t) (hv : t.value ≠ "EOF") : i < toks.length := by
  by_contra hge
  rw [cur_ge h1 (by omega)] at h
  cases h
  exact hv h3

theorem cur_lt_of_type_ne {toks : List Token} {lt : Token}
    (h1 : toks.getLast? = some lt) (h2 : lt.token_type = .EOF) {i : Nat} {t : Token}
    (h : current_token toks i = .ok t) (ht : t.token_type ≠ .EOF) : i < toks.length := by
  by_contra hge
  rw [cur_ge h1 (by omega)] at h
  cases h
  exact ht h2

theorem pe_progress {toks : List Token} {i : Nat} {e : Ast} {j : Nat}
    (h : parse_expression toks i = .ok (e, j)) : j = i + 1 := by
  unfold parse_expression at h
  split at h
  · cases h
  · split at h <;> (try cases h) <;> rfl

theorem pe_ok_lt {toks : List Token} {lt : Token}
    (h1 : toks.getLast? = some lt) (h2 : lt.token_type = .EOF) {i : Nat} {e : Ast} {j : Nat}
    (h : parse_expression toks i = .ok (e, j)) : i < toks.length := by
  unfold parse_expression at h
  split at h
  · cases h
  · rename_i t heqt
    split at h
    · exact cur_lt_of_type_ne h1 h2 heqt (by rename_i hty; rw [hty]; decide)
    · exact cur_lt_of_type_ne h1 h2 heqt (by rename_i hty; rw [hty]; decide)
    · exact cur_lt_of_type_ne h1 h2 heqt (by rename_i hty; rw [hty]; decide)
    · cases h

theorem pv_progress {toks : List Token} {i : Nat} {v : Ast} {j : Nat}
    (h : parse_variable toks i = .ok (v, j)) : i < j := by
  unfold parse_variable at h
  split at h
  · cases h
  · rename_i t heqt
    split at h
    case isTrue hdt =>
      split at h
      · cases h
      · rename_i t1 heq1
        split at h
        case isTrue hid =>
          split at h
          · cases h
          · rename_i t2 heq2
            split at h
            · cases h
            · rename_i expr0 j3 heqpr
              split at h
              · cases h
              · rename_i t3 heq3
                split at h
                case isTrue hsemi =>
                  cases h
                  by_cases he : t2.value = "="
                  · rw [if_pos he] at heqpr
                    split at heqpr
                    · cases heqpr
                    · rename_i e0 j0 heqe
                      cases heqpr
                      have := pe_progress heqe
                      omega
                  · rw [if_neg he] at heqpr
                    cases heqpr
                    omega
                case isFalse => cases h
        case isFalse => cases h
    case isFalse => cases h

theorem pe_noof {toks : List Token} {lt : Token} (h1 : toks.getLast? = some lt)
    {i : Nat} {e : Err} (h : parse_expression toks i = .error e) : e ≠ .outOfFuel := by
  unfold parse_expression at h
  split at h
  · rename_i e0 heq
    obtain ⟨t, ht⟩ := cur_ok h1 i
    rw [ht] at heq
    cases heq
  · split at h <;> (try cases h) <;> simp

theorem pv_noof {toks : List Token} {lt : Token} (h1 : toks.getLast? = some lt)
    {i : Nat} {e : Err} (h : parse_variable toks i = .error e) : e ≠ .outOfFuel := by
  unfold parse_variable at h
  split at h
  · rename_i e0 heq
    obtain ⟨t, ht⟩ := cur_ok h1 i
    rw [ht] at heq
    cases heq
  · rename_i t heqt
    split at h
    case isTrue hdt =>
      split at h
      · rename_i e0 heq
        obtain ⟨t1, ht1⟩ := cur_ok h1 (i + 1)
        rw [ht1] at heq
        cases heq
      · rename_i t1 heq1
        split at h
        case isTrue hid =>
          split at h
          · rename_i e0 heq
            obtain ⟨t2, ht2⟩ := cur_ok h1 (i + 2)
            rw [ht2] at heq
            cases heq
          · rename_i t2 heq2
            split at h
            · rename_i e0 heqpr
              cases h
              by_cases he : t2.value = "="
              · rw [if_pos he] at heqpr
                split at heqpr
                · rename_i heqe
                  cases heqpr
                  exact pe_noof h1 heqe
                · cases heqpr
              · rw [if_neg he] at heqpr
                cases heqpr
            · rename_i expr0 j3 heqpr
              split at h
              · rename_i e0 heq
                obtain ⟨t3, ht3⟩ := cur_ok h1 j3
                rw [ht3] at heq
                cases heq
              · rename_i t3 heq3
                split at h
                case isTrue hsemi => cases h
                case isFalse => cases h; simp
        case isFalse => cases h; simp
    case isFalse => cases h; simp

theorem pp_noof {toks : List Token} {lt : Token} (h1 : toks.getLast? = some lt)
    {i : Nat} {e : Err} (h : parse_parameter toks i = .error e) : e ≠ .outOfFuel := by
  unfold parse_parameter at h
  split at h
  · rename_i e0 heq
    obtain ⟨t, ht⟩ := cur_ok h1 i
    rw [ht] at heq
    cases heq
  · rename_i t heqt
    split at h
    case isTrue hdt =>
      split at h
      · rename_i e0 heq
        obtain ⟨t1, ht1⟩ := cur_ok h1 (i + 1)
        rw [ht1] at heq
        cases heq
      · rename_i t1 heq1
        split at h <;> (cases h; simp)
    case isFalse => cases h; simp

theorem pr_noof {toks : List Token} {lt : Token} (h1 : toks.getLast? = some lt)
    {i : Nat} {e : Err} (h : parse_return toks i = .error e) : e ≠ .outOfFuel := by
  unfold parse_return at h
  split at h
  · rename_i e0 heq
    obtain ⟨t, ht⟩ := cur_ok h1 (i + 1)
    rw [ht] at heq
    cases heq
  · rename_i t heqt
    split at h
    case isTrue => cases h; simp
    case isFalse =>
      split at h
      · rename_i heqe
        cases h
        exact pe_noof h1 heqe
      · rename_i e0 j0 heqe
        split at h
        · rename_i e1 heq
          obtain ⟨t1, ht1⟩ := cur_ok h1 j0
          rw [ht1] at heq
          cases heq
        · rename_i t1 heq1
          split at h <;> (cases h; simp)

theorem paramLoop_noof {toks : List Token} {lt : Token} (h1 : toks.getLast? = some lt)
    {fuel i : Nat} {a : List Ast} {e : Err} (hfuel : 1 ≤ fuel)
    (h : paramLoop toks fuel i a = .error e) : e ≠ .outOfFuel := by
  match fuel with
  | 0 => omega
  | fuel + 1 =>
    simp only [paramLoop] at h
    split at h
    · rename_i e0 heq
      cases h
      exact pp_noof h1 heq
    · rename_i p i1 heq
      exact absurd heq parse_parameter_never_ok

theorem parser_progress (toks : List Token) : ∀ fuel : Nat,
    (∀ i f j, parse_function toks fuel i = .ok (f, j) → i < j) ∧
    (∀ i l j, parse_block toks fuel i = .ok (l, j) → i < j) ∧
    (∀ i s l j, blockLoop toks fuel i s = .ok (l, j) → i < j) := by
  intro fuel
  induction fuel with
  | zero =>
    refine ⟨?_, ?_, ?_⟩
    · intro i f j h; simp [parse_function] at h
    · intro i l j h; simp [parse_block] at h
    · intro i s l j h; simp [blockLoop] at h
  | succ fuel ih =>
    obtain ⟨ihf, ihpb, ihb⟩ := ih
    refine ⟨?_, ?_, ?_⟩
    · -- parse_function
      intro i f j h
      simp only [parse_function] at h
      split at h
      · cases h
      · rename_i t heqt
        split at h
        case isTrue hdt =>
          split at h
          · cases h
          · rename_i t1 heq1
            split at h
            case isTrue hid =>
              split at h
              · cases h
              · rename_i t2 heq2
                split at h
                case isTrue hlp =>
                  split at h
                  · cases h
                  · rename_i t3 heq3
                    split at h
                    · cases h
                    · rename_i param i5 heqp
                      split at h
                      · cases h
                      · rename_i t4 heq4
                        split at h
                        case isTrue hrp =>
                          split at h
                          · cases h
                          · rename_i body i6 heqb
                            cases h
                            have hblk := ihpb _ _ _ heqb
                            by_cases hne : t3.value ≠ ")"
                            · rw [if_pos hne] at heqp
                              exact absurd heqp paramLoop_never_ok
                            · rw [if_neg hne] at heqp
                              cases heqp
                              omega
                        case isFalse => cases h
                case isFalse => cases h
            case isFalse => cases h
        case isFalse => cases h
    · -- parse_block
      intro i l j h
      simp only [parse_block] at h
      split at h
      · cases h
      · rename_i t heqt
        split at h
        case isTrue =>
          have := ihb _ _ _ _ h
          omega
        case isFalse => cases h
    · -- blockLoop
      intro i s l j h
      simp only [blockLoop] at h
      split at h
      · cases h
      · rename_i t heqt
        split at h
        case isTrue =>
          cases h
          omega
        case isFalse =>
          split at h
          · split at h
            · cases h
            · rename_i v i1 heqv
              have h2 := ihb _ _ _ _ h
              have h3 := pv_progress heqv
              omega
          · split at h
            case isTrue =>
              split at h
              · cases h
              · rename_i f i1 heqf
                have h2 := ihb _ _ _ _ h
                have h3 := ihf _ _ _ heqf
                omega
            case isFalse =>
              split at h
              case isTrue =>
                split at h
                · cases h
                · rename_i r i1 heqr
                  exact absurd heqr parse_return_never_ok
              case isFalse => exact ihb _ _ _ _ h
          · split at h
            · cases h
            · rename_i e i1 heqe
              have h2 := ihb _ _ _ _ h
              have h3 := pe_progress heqe
              omega

theorem parser_fuel_ok (toks : List Token) (lt : Token)
    (h1 : toks.getLast? = some lt) (h2 : lt.token_type = .EOF) (h3 : lt.value = "EOF")
    (h4 : ∀ t ∈ toks, t.token_type = .Keyword →
      t.value = "function" ∨ t.value = "done" ∨ t.value = "return") :
    ∀ fuel : Nat,
    (∀ i, 1 ≤ fuel → 2 * (toks.length - i) ≤ fuel →
      parse_function toks fuel i ≠ .error .outOfFuel) ∧
    (∀ i, 2 * (toks.length - i) + 2 ≤ fuel → parse_block toks fuel i ≠ .error .outOfFuel) ∧
    (∀ i s, 2 * (toks.length - i) + 1 ≤ fuel →
      blockLoop toks fuel i s ≠ .error .outOfFuel) ∧
    (∀ i a, 2 * (toks.length - i) + 1 ≤ fuel →
      parseLoop toks fuel i a ≠ .error .outOfFuel) := by
  intro fuel
  induction fuel with
  | zero =>
    refine ⟨?_, ?_, ?_, ?_⟩
    · intro i h5 h6; omega
    · intro i hf; omega
    · intro i s hf; omega
    · intro i a hf; omega
  | succ fuel ih =>
    obtain ⟨ihf, ihpb, ihb, ihl⟩ := ih
    refine ⟨?_, ?_, ?_, ?_⟩
    · -- parse_function
      intro i h5 h6 hcontra
      simp only [parse_function] at hcontra
      split at hcontra
      · rename_i e0 heq
        obtain ⟨t, ht⟩ := cur_ok h1 (i + 1)
        rw [ht] at heq
        cases heq
      · rename_i t heqt
        split at hcontra
        case isTrue hdt =>
          split at hcontra
          · rename_i e0 heq
            obtain ⟨t1, ht1⟩ := cur_ok h1 (i + 2)
            rw [ht1] at heq
            cases heq
          · rename_i t1 heq1
            split at hcontra
            case isTrue hid =>
              split at hcontra
              · rename_i e0 heq
                obtain ⟨t2, ht2⟩ := cur_ok h1 (i + 3)
                rw [ht2] at heq
                cases heq
              · rename_i t2 heq2
                split at hcontra
                case isTrue hlp =>
                  have hlt3 : i + 3 < toks.length :=
                    cur_lt_of_value_ne h1 h3 heq2 (by rw [hlp]; decide)
                  split at hcontra
                  · rename_i e0 heq
                    obtain ⟨t3, ht3⟩ := cur_ok h1 (i + 4)
                    rw [ht3] at heq
                    cases heq
                  · rename_i t3 heq3
                    split at hcontra
                    · rename_i e0 heqp
                      simp only [Except.error.injEq] at hcontra
                      subst hcontra
                      by_cases hne : t3.value ≠ ")"
                      · rw [if_pos hne] at heqp
                        exact paramLoop_noof h1 (by omega) heqp rfl
                      · rw [if_neg hne] at heqp
                        cases heqp
                    · rename_i param i5 heqp
                      split at hcontra
                      · rename_i e0 heq
                        obtain ⟨t4, ht4⟩ := cur_ok h1 i5
                        rw [ht4] at heq
                        cases heq
                      · rename_i t4 heq4
                        split at hcontra
                        case isTrue hrp =>
                          split at hcontra
                          · rename_i e0 heqb
                            simp only [Except.error.injEq] at hcontra
                            subst hcontra
                            by_cases hne : t3.value ≠ ")"
                            · rw [if_pos hne] at heqp
                              exact absurd heqp paramLoop_never_ok
                            · rw [if_neg hne] at heqp
                              cases heqp
                              have hlt4 : i + 4 < toks.length :=
                                cur_lt_of_value_ne h1 h3 heq4 (by rw [hrp]; decide)
                              exact ihpb _ (by omega) heqb
                          · simp at hcontra
                        case isFalse => simp at hcontra
                case isFalse => simp at hcontra
            case isFalse => simp at hcontra
        case isFalse => simp at hcontra
    · -- parse_block
      intro i hf hcontra
      simp only [parse_block] at hcontra
      split at hcontra
      · rename_i e0 heq
        obtain ⟨t, ht⟩ := cur_ok h1 i
        rw [ht] at heq
        cases heq
      · rename_i t heqt
        split at hcontra
        case isTrue hq =>
          have hlt : i < toks.length :=
            cur_lt_of_value_ne h1 h3 heqt (by rw [hq]; decide)
          exact ihb _ _ (by omega) hcontra
        case isFalse => simp at hcontra
    · -- blockLoop
      intro i s hf hcontra
      simp only [blockLoop] at hcontra
      split at hcontra
      · rename_i e0 heq
        obtain ⟨t, ht⟩ := cur_ok h1 i
        rw [ht] at heq
        cases heq
      · rename_i t heqt
        split at hcontra
        case isTrue => simp at hcontra
        case isFalse hdone =>
          split at hcontra
          · -- DataType statement
            rename_i hty
            split at hcontra
            · rename_i e0 heqv
              simp only [Except.error.injEq] at hcontra
              subst hcontra
              exact pv_noof h1 heqv rfl
            · rename_i v i1 heqv
              have hlt : i < toks.length :=
                cur_lt_of_type_ne h1 h2 heqt (by rw [hty]; decide)
              have hpr := pv_progress heqv
              exact ihb _ _ (by omega) hcontra
          · -- Keyword
            rename_i hty
            split at hcontra
            case isTrue hq =>
              have hlt : i < toks.length :=
                cur_lt_of_type_ne h1 h2 heqt (by rw [hty]; decide)
              split at hcontra
              · rename_i e0 heqf
                simp only [Except.error.injEq] at hcontra
                subst hcontra
                exact ihf _ (by omega) (by omega) heqf
              · rename_i f i1 heqf
                have hpr := (parser_progress toks fuel).1 _ _ _ heqf
                exact ihb _ _ (by omega) hcontra
            case isFalse hq =>
              split at hcontra
              case isTrue hq2 =>
                split at hcontra
                · rename_i e0 heqr
                  simp only [Except.error.injEq] at hcontra
                  subst hcontra
                  exact pr_noof h1 heqr rfl
                · rename_i r i1 heqr
                  exact absurd heqr parse_return_never_ok
              case isFalse hq2 =>
                rcases h4 t (current_token_mem heqt) hty with hv | hv | hv
                · exact hq hv
                · exact hdone hv
                · exact hq2 hv
          · -- expression statement
            split at hcontra
            · rename_i e0 heqe
              simp only [Except.error.injEq] at hcontra
              subst hcontra
              exact pe_noof h1 heqe rfl
            · rename_i e1 i1 heqe
              have hlt : i < toks.length := pe_ok_lt h1 h2 heqe
              have hpr := pe_progress heqe
              exact ihb _ _ (by omega) hcontra
    · -- parseLoop
      intro i a hf hcontra
      simp only [parseLoop] at hcontra
      split at hcontra
      · rename_i e0 heq
        obtain ⟨t, ht⟩ := cur_ok h1 i
        rw [ht] at heq
        cases heq
      · rename_i t heqt
        split at hcontra
        case isTrue => simp at hcontra
        case isFalse hneof =>
          have hlt : i < toks.length := cur_lt_of_type_ne h1 h2 heqt hneof
          split at hcontra
          · split at hcontra
            · rename_i e0 heqv
              simp only [Except.error.injEq] at hcontra
              subst hcontra
              exact pv_noof h1 heqv rfl
            · rename_i v i1 heqv
              have hpr := pv_progress heqv
              exact ihl _ _ (by omega) hcontra
          · split at hcontra
            case isTrue hq =>
              split at hcontra
              · rename_i e0 heqf
                simp only [Except.error.injEq] at hcontra
                subst hcontra
                exact ihf _ (by omega) (by omega) heqf
              · rename_i f i1 heqf
                have hpr := (parser_progress toks fuel).1 _ _ _ heqf
                exact ihl _ _ (by omega) hcontra
            case isFalse => exact ihl _ _ (by omega) hcontra
          · exact ihl _ _ (by omega) hcontra

/-- C10: for every token sequence of the shape `tokenize` produces — ending in
one EOF token (whose value is "EOF") and with every Keyword token's value in
the set function, done, return — `Parser.parse` terminates: each iteration of
the top-level loop and of the block loop advances the cursor or raises, so the
run never exhausts the model's fuel bound and Python's parse either returns a
Program or raises synchronously.  (Without the Keyword hypothesis the block
loop genuinely spins forever on a foreign Keyword token, and without the
trailing EOF the block loop appends expression statements forever, so both
hypotheses are necessary.) -/
theorem parse_terminates_on_scanner_shaped_tokens (toks : List Token) (lt : Token)
    (h1 : toks.getLast? = some lt) (h2 : lt.token_type = .EOF) (h3 : lt.value = "EOF")
    (h4 : ∀ t ∈ toks, t.token_type = .Keyword →
      t.value = "function" ∨ t.value = "done" ∨ t.value = "return") :
    parse_sc toks ≠ .error .outOfFuel := by
  intro hcontra
  unfold parse_sc at hcontra
  split at hcontra
  · rename_i e heq
    simp only [Except.error.injEq] at hcontra
    subst hcontra
    exact (parser_fuel_ok toks lt h1 h2 h3 h4 (2 * toks.length + 2)).2.2.2 0 []
      (by omega) heq
  · simp at hcontra

theorem parse_terminates_on_scanner_shaped_tokens_witness :
    parse_sc [⟨.DataType, "int", ⟨1, 1⟩⟩, ⟨.Identifier, "x", ⟨5, 1⟩⟩,
        ⟨.Delimiter, ";", ⟨6, 1⟩⟩, ⟨.EOF, "EOF", ⟨7, 1⟩⟩] ≠ .error .outOfFuel :=
  parse_terminates_on_scanner_shaped_tokens
    [⟨.DataType, "int", ⟨1, 1⟩⟩, ⟨.Identifier, "x", ⟨5, 1⟩⟩,
     ⟨.Delimiter, ";", ⟨6, 1⟩⟩, ⟨.EOF, "EOF", ⟨7, 1⟩⟩]
    ⟨.EOF, "EOF", ⟨7, 1⟩⟩ (by decide) rfl rfl (by decide)

end SuperCode
